import Mathlib

/-!
Shallow embedding of the core of the `httpmockserver` Go library: the
expectation data model, the call-count bound bookkeeping, the per-request
matching engine (`ServeHTTP`), the response renderer, the lifecycle verifier
(`AssertExpectations`) and teardown (`Shutdown`).

Go reference semantics used by the embedding:
* a `RequestValidationFunc` returns `nil` on pass and an `error` on failure;
  here it returns `none` on pass and `some msg` on failure;
* Go byte slices are `Option (List Nat)`: `none` is the nil slice, `some []`
  the empty but non-nil slice;
* the injected `T` reporter is modelled by a list of emitted `Report`s:
  `Report.errorf` for `t.Errorf` (non-fatal) and `Report.fatalf` for
  `t.Fatalf` (fatal); the Go methods that follow a `t.Fatalf` with an
  explicit `return` are modelled by returning right after recording it;
* Go maps iterated to set response headers are modelled as association lists;
* machine integers (`count`, `min`, `max`) are `Int`; no arithmetic in the
  library can overflow 64-bit in any scenario the claims touch, so plain
  `Int` is faithful.
-/

namespace Httpmockserver

/-- Immutable decoded snapshot of one HTTP call (Go `IncomingRequest` plus the
parts of `*http.Request` the validators read). Each lookup function models the
corresponding Go `Get`, which returns the empty string when the key is
absent. -/
structure IncomingRequest where
  method : String
  path : String
  headerGet : String → String
  queryGet : String → String
  formGet : String → String
  body : List Nat

/-- One validator of an expectation (Go struct `requestValidation`): the
predicate, its human-readable description, and the mutable `satisfied`
diagnostic flag. -/
structure requestValidation where
  validation : IncomingRequest → Option String
  description : String
  satisfied : Bool

/-- Go struct `MockResponse`: status code, header map, optional body bytes
(`none` models the nil slice that suppresses the body write). -/
structure MockResponse where
  Code : Int
  Headers : List (String × String)
  Body : Option (List Nat)
deriving Repr, DecidableEq

/-- Go struct `requestExpectation`: call counter, `[min, max]` call-count
bounds, the ordered validator conjunction, the optional response template and
the flavor flags. -/
structure requestExpectation where
  count : Int
  min : Int
  max : Int
  requestValidations : List requestValidation
  response : Option MockResponse
  every : Bool := false
  defaultExp : Bool := false

/-- Go `math.MaxInt32`, the effectively-unbounded upper call bound. -/
def maxInt32 : Int := 2147483647

/-- `Times(n)` sets both bounds to `n`. -/
def requestExpectation.Times (e : requestExpectation) (n : Int) : requestExpectation :=
  { e with min := n, max := n }

/-- `MinTimes(n)`: sets `min := n`; if `max` is still the default `1` it is
raised to `math.MaxInt32`; if `max < min` afterwards, `max` is raised to
`min`. -/
def requestExpectation.MinTimes (e : requestExpectation) (n : Int) : requestExpectation :=
  let e1 := { e with min := n }
  let e2 := if e1.max = 1 then { e1 with max := maxInt32 } else e1
  if e2.max < e2.min then { e2 with max := e2.min } else e2

/-- `MaxTimes(n)`: sets `max := n`; if `min > max` afterwards, `min` is
lowered to `max`. -/
def requestExpectation.MaxTimes (e : requestExpectation) (n : Int) : requestExpectation :=
  let e1 := { e with max := n }
  if e1.min > e1.max then { e1 with min := e1.max } else e1

/-- `AnyTimes()` sets the bounds to `[0, math.MaxInt32]`. -/
def requestExpectation.AnyTimes (e : requestExpectation) : requestExpectation :=
  { e with min := 0, max := maxInt32 }

/-- `Once()` is `Times(1)`. -/
def requestExpectation.Once (e : requestExpectation) : requestExpectation :=
  e.Times 1

/-- `Twice()` is `Times(2)`. -/
def requestExpectation.Twice (e : requestExpectation) : requestExpectation :=
  e.Times 2

/-- `AtMostOnce()` sets the bounds to `[0, 1]`. -/
def requestExpectation.AtMostOnce (e : requestExpectation) : requestExpectation :=
  { e with min := 0, max := 1 }

/-- `AtLeastOnce()` sets the bounds to `[1, math.MaxInt32]`. -/
def requestExpectation.AtLeastOnce (e : requestExpectation) : requestExpectation :=
  { e with min := 1, max := maxInt32 }

/-- The counted expectation freshly returned by `mockServer.EXPECT()`:
`count = 0` and default bounds `[1, 1]`. -/
def expectDefault : requestExpectation :=
  { count := 0, min := 1, max := 1, requestValidations := [], response := none }

/-- One call-count bound mutation from the fluent builder API. -/
inductive BoundOp where
  | times (n : Int)
  | minTimes (n : Int)
  | maxTimes (n : Int)
  | anyTimes
  | once
  | twice
  | atMostOnce
  | atLeastOnce

/-- Apply one bound mutation to an expectation. -/
def applyBoundOp (op : BoundOp) (e : requestExpectation) : requestExpectation :=
  match op with
  | BoundOp.times n => e.Times n
  | BoundOp.minTimes n => e.MinTimes n
  | BoundOp.maxTimes n => e.MaxTimes n
  | BoundOp.anyTimes => e.AnyTimes
  | BoundOp.once => e.Once
  | BoundOp.twice => e.Twice
  | BoundOp.atMostOnce => e.AtMostOnce
  | BoundOp.atLeastOnce => e.AtLeastOnce

/-- Apply a sequence of bound mutations, first element first. -/
def applyBoundOps (ops : List BoundOp) (e : requestExpectation) : requestExpectation :=
  match ops with
  | [] => e
  | op :: rest => applyBoundOps rest (applyBoundOp op e)

/-- One emitted failure report of the injected `T` collaborator: `errorf` is
non-fatal (`t.Errorf`: test marked failed, processing continues), `fatalf` is
fatal (`t.Fatalf`). -/
inductive Report where
  | errorf (msg : String)
  | fatalf (msg : String)
deriving Repr, DecidableEq

/-- One primitive operation on the outgoing `http.ResponseWriter`. -/
inductive WriteOp where
  | setHeader (key value : String)
  | writeHeader (code : Int)
  | write (data : List Nat)
deriving Repr, DecidableEq

/-- The whole mock server state (Go struct `mockServer`); `serverClosed`
models whether `s.server.Close()` has been called. -/
structure mockServer where
  finisheCalled : Bool
  serverClosed : Bool
  every : List requestExpectation
  expectations : List requestExpectation
  defaults : List requestExpectation

/-- The reports of the EVERY check for the validators of one expectation:
`s.t.Errorf("expectation failed: %v", err)` for each failing validator. -/
def checkEveryVals (req : IncomingRequest) : List requestValidation → List Report
  | [] => []
  | v :: rest =>
    match v.validation req with
    | some err => Report.errorf ("expectation failed: " ++ err) :: checkEveryVals req rest
    | none => checkEveryVals req rest

/-- The reports of the EVERY check over the whole `every` sequence. -/
def checkEvery (req : IncomingRequest) : List requestExpectation → List Report
  | [] => []
  | e :: rest => checkEveryVals req e.requestValidations ++ checkEvery req rest

/-- The inner loop of the counted scan: run the validators in declared order;
each one that passes is immediately marked `satisfied := true`; on the first
failure the loop is abandoned (`continue outerExp`), leaving the failing
validator and the ones after it untouched. Returns the updated validator list
and whether all of them passed. -/
def evalValidations (req : IncomingRequest) :
    List requestValidation → List requestValidation × Bool
  | [] => ([], true)
  | v :: rest =>
    match v.validation req with
    | some _ => (v :: rest, false)
    | none =>
      let r := evalValidations req rest
      ({ v with satisfied := true } :: r.1, r.2)

/-- The counted scan of `ServeHTTP` (loop labelled `outerExp`): walk the
counted sequence in registration order; the first expectation whose validators
all pass becomes `matchedExpectation` and its `count` is incremented; the scan
stops there (`break`). Returns the updated counted sequence and the matched
expectation, if any. -/
def scanExpectations (req : IncomingRequest) :
    List requestExpectation → List requestExpectation × Option requestExpectation
  | [] => ([], none)
  | e :: rest =>
    let ev := evalValidations req e.requestValidations
    if ev.2 then
      let e2 := { e with requestValidations := ev.1, count := e.count + 1 }
      (e2 :: rest, some e2)
    else
      let r := scanExpectations req rest
      ({ e with requestValidations := ev.1 } :: r.1, r.2)

/-- Whether every validator of an expectation passes on a request. -/
def allPass (req : IncomingRequest) (e : requestExpectation) : Bool :=
  e.requestValidations.all (fun v => (v.validation req).isNone)

/-- Index of the first expectation whose validators all pass on the request.
It reads only the validators, never `count`, `min` or `max`. -/
def firstFullMatchIndex (req : IncomingRequest) : List requestExpectation → Option Nat
  | [] => none
  | e :: rest =>
    if allPass req e then some 0 else (firstFullMatchIndex req rest).map Nat.succ

/-- The default scan of `ServeHTTP` (loop labelled `outerDefaults`): first
default whose validators all pass, with no mutation at all. -/
def scanDefaults (req : IncomingRequest) :
    List requestExpectation → Option requestExpectation
  | [] => none
  | e :: rest => if allPass req e then some e else scanDefaults req rest

/-- `----- <description>` lines of an expectation's validators, used in the
missing-response fatal message. -/
def descriptionLines : List requestValidation → String
  | [] => ""
  | v :: rest => "----- " ++ v.description ++ "\n" ++ descriptionLines rest

/-- Render a `MockResponse` onto the writer: set every header, write the
status code, and write the body only when it is non-nil. -/
def renderResponse (resp : MockResponse) : List WriteOp :=
  resp.Headers.map (fun kv => WriteOp.setHeader kv.1 kv.2)
    ++ [WriteOp.writeHeader resp.Code]
    ++ (match resp.Body with
        | none => []
        | some b => [WriteOp.write b])

/-- The tail of `ServeHTTP` after matching: no match is the fatal
`Unexpected call`; a match without a response template is the fatal
`Response not defined`; otherwise the response is rendered. -/
def respond (matched : Option requestExpectation) (req : IncomingRequest) :
    List Report × List WriteOp :=
  match matched with
  | none =>
    ([Report.fatalf ("Unexpected call:\nMethod: " ++ req.method ++ "\nPath: " ++ req.path)], [])
  | some e =>
    match e.response with
    | none =>
      ([Report.fatalf ("Response not defined for expectation:\n"
          ++ descriptionLines e.requestValidations)], [])
    | some resp => ([], renderResponse resp)

/-- Result of handling one request: the new server state, the emitted
reports, and the operations performed on the response writer. -/
structure ServeResult where
  state : mockServer
  reports : List Report
  writes : List WriteOp

/-- `mockServer.ServeHTTP`: run the EVERY check (non-fatal failures), then the
counted scan, then — if nothing matched — the default scan, and finally
either report a fatal condition or render the matched response. -/
def ServeHTTP (s : mockServer) (req : IncomingRequest) : ServeResult :=
  let everyReports := checkEvery req s.every
  let scanned := scanExpectations req s.expectations
  let matched :=
    match scanned.2 with
    | some e => some e
    | none => scanDefaults req s.defaults
  let rw := respond matched req
  { state := { s with expectations := scanned.1 }
    reports := everyReports ++ rw.1
    writes := rw.2 }

/-- `----- <description>` lines with the ` (never matched)` annotation on the
first validator whose `satisfied` flag is still false (the Boolean argument is
Go's `showFirstUnmatched`). -/
def valLines : Bool → List requestValidation → String
  | _, [] => ""
  | shown, v :: rest =>
    if !v.satisfied && !shown then
      "----- " ++ v.description ++ " (never matched)\n" ++ valLines true rest
    else
      "----- " ++ v.description ++ "\n" ++ valLines shown rest

/-- The aggregated report text of `AssertExpectations` starting at
0-based index `i` (printed 1-based). -/
def assertBuf (i : Nat) : List requestExpectation → String
  | [] => ""
  | e :: rest =>
    (if e.requestValidations.length = 0 then
       toString (i + 1) ++ ". Expectation\n----- no request validation defined\n"
     else "")
    ++ (if e.count < e.min ∨ e.count > e.max then
          toString (i + 1) ++ ". Expectation\n"
          ++ valLines false e.requestValidations
          ++ (if e.count < e.min then
                "----- only " ++ toString e.count ++ " calls but at least "
                  ++ toString e.min ++ " were expected\n"
              else
                "----- " ++ toString e.count ++ " calls but at most "
                  ++ toString e.max ++ " were expected\n")
        else "")
    ++ assertBuf (i + 1) rest

/-- Whether one counted expectation is flagged unsatisfied by the verifier. -/
def unsatisfiedExp (e : requestExpectation) : Bool :=
  decide (e.requestValidations.length = 0) || decide (e.count < e.min)
    || decide (e.count > e.max)

/-- `mockServer.AssertExpectations`: sets `finisheCalled` at entry, then
emits one aggregated fatal report exactly when some counted expectation is
unsatisfied. -/
def AssertExpectations (s : mockServer) : mockServer × List Report :=
  let s2 := { s with finisheCalled := true }
  if s.expectations.any unsatisfiedExp then
    (s2, [Report.fatalf ("\nexpectation(s) not satisfied:\n" ++ assertBuf 0 s.expectations)])
  else
    (s2, [])

/-- `mockServer.Shutdown`: a fatal usage error (and no close) when
`AssertExpectations` has not been called; otherwise the listener is closed. -/
def Shutdown (s : mockServer) : mockServer × List Report :=
  if !s.finisheCalled then
    (s, [Report.fatalf "AssertExpectations() was not called, no expectations were checked"])
  else
    ({ s with serverClosed := true }, [])

/-- The query-parameter regex validator (`queryParameterMatchesValidation`):
`matchString` models the compiled regex's `MatchString`. It requires the query
parameter to be present (non-empty) but then matches the regex against
`R.Form.Get(key)`, the form value, not the query value. -/
def queryParameterMatchesValidation (matchString : String → Bool) (key : String)
    (r : IncomingRequest) : Option String :=
  if r.queryGet key = "" then
    some ("request validation failed: query parameter " ++ key ++ " was missing")
  else if !matchString (r.formGet key) then
    some ("request validation failed: query parameter " ++ key ++ " did not match regex")
  else
    none

/-- A validator that passes on every request (as built by `AnyRequest`-style
matchers whose condition always holds). -/
def vPass : requestValidation :=
  { validation := fun _ => none, description := "pass", satisfied := false }

/-- A validator that fails on every request. -/
def vFail : requestValidation :=
  { validation := fun _ => some "request validation failed", description := "fail",
    satisfied := false }

/-- A concrete decoded request used for concrete evaluations. -/
def req0 : IncomingRequest :=
  { method := "GET", path := "/ping", headerGet := fun _ => "", queryGet := fun _ => "",
    formGet := fun _ => "", body := [] }

/-- A concrete 200 response with a non-nil body. -/
def resp200 : MockResponse :=
  { Code := 200, Headers := [], Body := some [111, 107] }

/-- A concrete 404 response with a nil body. -/
def resp404 : MockResponse :=
  { Code := 404, Headers := [], Body := none }

/-- A counted expectation with default bounds `[1, 1]`, one always-passing
validator and a 200 response. -/
def expOnce : requestExpectation :=
  { count := 0, min := 1, max := 1, requestValidations := [vPass], response := some resp200 }

/-- A counted expectation like `expOnce` whose count is already far above its
`max` of 1. -/
def expBusy : requestExpectation :=
  { count := 5, min := 1, max := 1, requestValidations := [vPass], response := some resp200 }

/-- First of two counted expectations that both match any request. -/
def expA : requestExpectation :=
  { count := 0, min := 1, max := 1, requestValidations := [vPass], response := some resp200 }

/-- Second of two counted expectations that both match any request. -/
def expB : requestExpectation :=
  { count := 0, min := 1, max := 1, requestValidations := [vPass], response := some resp404 }

/-- A counted expectation whose first validator always passes and whose second
always fails, so the full conjunction never matches. -/
def expTwoVals : requestExpectation :=
  { count := 0, min := 1, max := 1, requestValidations := [vPass, vFail],
    response := some resp200 }

/-- A catch-all default expectation returning 404, as built by
`DEFAULT().AnyRequest().Response(404)` (a default has Go zero-value
bounds). -/
def defaultCatchAll : requestExpectation :=
  { count := 0, min := 0, max := 0, requestValidations := [vPass], response := some resp404,
    defaultExp := true }

/-- An `every` expectation whose validator fails on `req0`. -/
def everyFailing : requestExpectation :=
  { count := 0, min := 0, max := 0, requestValidations := [vFail], response := none,
    every := true }

/-- Server with one exactly-once counted expectation and a catch-all
default. -/
def serverC1 : mockServer :=
  { finisheCalled := false, serverClosed := false, every := [],
    expectations := [expOnce], defaults := [defaultCatchAll] }

/-- Server with a failing `every` expectation and a matching counted one. -/
def serverC3 : mockServer :=
  { finisheCalled := false, serverClosed := false, every := [everyFailing],
    expectations := [expOnce], defaults := [] }

/-- Server whose only counted expectation is unsatisfied (never called, and
with zero validators). -/
def serverC5 : mockServer :=
  { finisheCalled := false, serverClosed := false, every := [],
    expectations := [expectDefault], defaults := [] }

/-- Server whose only counted expectation has a passing first validator and a
failing second one. -/
def serverC6 : mockServer :=
  { finisheCalled := false, serverClosed := false, every := [],
    expectations := [expTwoVals], defaults := [] }

/-- A fresh server on which `AssertExpectations` has not been called. -/
def serverUnverified : mockServer :=
  { finisheCalled := false, serverClosed := false, every := [],
    expectations := [], defaults := [] }

/-- A server on which `AssertExpectations` has been called. -/
def serverVerified : mockServer :=
  { serverUnverified with finisheCalled := true }

/-- Concrete matcher modelling the compiled regex `abc` restricted to a full
match: true exactly on the string `abc`. -/
def mAbc : String → Bool := fun s => s == "abc"

/-- Request whose query parameter value is `abc` for every name while its
form value is `xyz` for every name. -/
def reqC10 : IncomingRequest :=
  { method := "GET", path := "/x", headerGet := fun _ => "",
    queryGet := fun _ => "abc", formGet := fun _ => "xyz", body := [] }

lemma applyBoundOp_min_le_max (op : BoundOp) (e : requestExpectation) :
    (applyBoundOp op e).min ≤ (applyBoundOp op e).max := by
  cases op <;>
    simp only [applyBoundOp, requestExpectation.Times, requestExpectation.MinTimes,
      requestExpectation.MaxTimes, requestExpectation.AnyTimes, requestExpectation.Once,
      requestExpectation.Twice, requestExpectation.AtMostOnce, requestExpectation.AtLeastOnce,
      maxInt32] <;>
    (try split_ifs) <;> (try simp_all) <;> omega

lemma applyBoundOps_min_le_max (ops : List BoundOp) (e : requestExpectation)
    (h : e.min ≤ e.max) :
    (applyBoundOps ops e).min ≤ (applyBoundOps ops e).max := by
  induction ops generalizing e with
  | nil => simpa [applyBoundOps] using h
  | cons op rest ih =>
    simpa [applyBoundOps] using ih (applyBoundOp op e) (applyBoundOp_min_le_max op e)

lemma unsatisfiedExp_iff (e : requestExpectation) :
    unsatisfiedExp e = true
      ↔ (e.count < e.min ∨ e.count > e.max ∨ e.requestValidations = []) := by
  simp only [unsatisfiedExp, Bool.or_eq_true, decide_eq_true_eq, List.length_eq_zero]
  tauto

lemma evalValidations_snd (req : IncomingRequest) (vals : List requestValidation) :
    (evalValidations req vals).2 = vals.all (fun v => (v.validation req).isNone) := by
  induction vals with
  | nil => simp [evalValidations]
  | cons v rest ih =>
    cases h : v.validation req <;> simp [evalValidations, h, ih]

lemma evalValidations_snd_eq_allPass (req : IncomingRequest) (e : requestExpectation) :
    (evalValidations req e.requestValidations).2 = allPass req e :=
  evalValidations_snd req e.requestValidations

lemma evalValidations_get (req : IncomingRequest) (vals : List requestValidation)
    (j : Nat) (v : requestValidation) (hv : vals[j]? = some v) :
    ∃ v2, (evalValidations req vals).1[j]? = some v2 ∧
      v2.validation = v.validation ∧ v2.description = v.description ∧
      v2.satisfied
        = (v.satisfied
            || (vals.take (j + 1)).all (fun u => (u.validation req).isNone)) := by
  induction vals generalizing j with
  | nil => simp at hv
  | cons v0 rest ih =>
    cases h : v0.validation req with
    | some e =>
      cases j with
      | zero =>
        simp only [List.getElem?_cons_zero, Option.some.injEq] at hv
        subst hv
        exact ⟨v0, by simp [evalValidations, h], rfl, rfl, by simp [h]⟩
      | succ j =>
        simp only [List.getElem?_cons_succ] at hv
        exact ⟨v, by simp [evalValidations, h, hv], rfl, rfl,
          by simp [h, List.take_succ_cons]⟩
    | none =>
      cases j with
      | zero =>
        simp only [List.getElem?_cons_zero, Option.some.injEq] at hv
        subst hv
        exact ⟨{ v0 with satisfied := true }, by simp [evalValidations, h], rfl, rfl,
          by simp [h]⟩
      | succ j =>
        simp only [List.getElem?_cons_succ] at hv
        obtain ⟨v2, hget, hval, hdesc, hsat⟩ := ih j hv
        exact ⟨v2, by simp [evalValidations, h, hget], hval, hdesc,
          by simp [h, hsat, List.take_succ_cons]⟩

lemma allPass_of_validations_eq (req : IncomingRequest) (e1 e2 : requestExpectation)
    (h : e1.requestValidations = e2.requestValidations) :
    allPass req e1 = allPass req e2 := by
  simp [allPass, h]

lemma firstFullMatchIndex_map (req : IncomingRequest) (es : List requestExpectation)
    (f : requestExpectation → requestExpectation)
    (hf : ∀ x, (f x).requestValidations = x.requestValidations) :
    firstFullMatchIndex req (es.map f) = firstFullMatchIndex req es := by
  induction es with
  | nil => simp [firstFullMatchIndex]
  | cons e rest ih =>
    simp only [List.map_cons, firstFullMatchIndex,
      allPass_of_validations_eq req (f e) e (hf e), ih]

lemma scanExpectations_match (req : IncomingRequest) (es : List requestExpectation)
    (i : Nat) (e : requestExpectation)
    (hfirst : firstFullMatchIndex req es = some i) (hi : es[i]? = some e) :
    (scanExpectations req es).2
      = some { e with count := e.count + 1,
                      requestValidations := (evalValidations req e.requestValidations).1 } := by
  induction es generalizing i with
  | nil => simp [firstFullMatchIndex] at hfirst
  | cons e0 rest ih =>
    by_cases hp : allPass req e0
    · simp only [firstFullMatchIndex, hp, if_true, Option.some.injEq] at hfirst
      subst hfirst
      simp only [List.getElem?_cons_zero, Option.some.injEq] at hi
      subst hi
      simp [scanExpectations, evalValidations_snd_eq_allPass, hp]
    · simp only [firstFullMatchIndex] at hfirst
      rw [if_neg hp] at hfirst
      cases hrest : firstFullMatchIndex req rest with
      | none => simp [hrest] at hfirst
      | some k =>
        simp only [hrest, Option.map_some', Option.some.injEq] at hfirst
        subst hfirst
        simp only [List.getElem?_cons_succ] at hi
        have := ih k hrest hi
        simp [scanExpectations, evalValidations_snd_eq_allPass, hp, this]

lemma scanExpectations_none (req : IncomingRequest) (es : List requestExpectation)
    (hnone : firstFullMatchIndex req es = none) :
    (scanExpectations req es).2 = none := by
  induction es with
  | nil => simp [scanExpectations]
  | cons e0 rest ih =>
    by_cases hp : allPass req e0
    · simp [firstFullMatchIndex, hp] at hnone
    · simp only [firstFullMatchIndex] at hnone
      rw [if_neg hp] at hnone
      simp only [Option.map_eq_none'] at hnone
      simp [scanExpectations, evalValidations_snd_eq_allPass, hp, ih hnone]

lemma scanExpectations_get (req : IncomingRequest) (es : List requestExpectation)
    (j : Nat) (ej : requestExpectation) (hj : es[j]? = some ej) :
    ∃ e2, (scanExpectations req es).1[j]? = some e2 ∧
      e2.min = ej.min ∧ e2.max = ej.max ∧ e2.response = ej.response ∧
      e2.count = ej.count
        + (if firstFullMatchIndex req es = some j then 1 else 0) := by
  induction es generalizing j with
  | nil => simp at hj
  | cons e0 rest ih =>
    by_cases hp : allPass req e0
    · cases j with
      | zero =>
        simp only [List.getElem?_cons_zero, Option.some.injEq] at hj
        subst hj
        refine ⟨{ e0 with requestValidations := (evalValidations req e0.requestValidations).1,
                          count := e0.count + 1 },
          by simp [scanExpectations, evalValidations_snd_eq_allPass, hp],
          rfl, rfl, rfl, ?_⟩
        simp [firstFullMatchIndex, hp]
      | succ j =>
        simp only [List.getElem?_cons_succ] at hj
        refine ⟨ej, ?_, rfl, rfl, rfl, ?_⟩
        · simp [scanExpectations, evalValidations_snd_eq_allPass, hp, hj]
        · simp [firstFullMatchIndex, hp]
    · cases j with
      | zero =>
        simp only [List.getElem?_cons_zero, Option.some.injEq] at hj
        subst hj
        refine ⟨{ e0 with requestValidations := (evalValidations req e0.requestValidations).1 },
          by simp [scanExpectations, evalValidations_snd_eq_allPass, hp],
          rfl, rfl, rfl, ?_⟩
        have hne : firstFullMatchIndex req (e0 :: rest) ≠ some 0 := by
          simp only [firstFullMatchIndex]
          rw [if_neg hp]
          cases firstFullMatchIndex req rest <;> simp
        simp [hne]
      | succ j =>
        simp only [List.getElem?_cons_succ] at hj
        obtain ⟨e2, hget, hmin, hmax, hresp, hcount⟩ := ih j hj
        refine ⟨e2, ?_, hmin, hmax, hresp, ?_⟩
        · simp [scanExpectations, evalValidations_snd_eq_allPass, hp, hget]
        · have hiff : (firstFullMatchIndex req (e0 :: rest) = some (j + 1))
              ↔ (firstFullMatchIndex req rest = some j) := by
            simp only [firstFullMatchIndex]
            rw [if_neg hp]
            cases firstFullMatchIndex req rest <;> simp
          rw [hcount]
          by_cases hc : firstFullMatchIndex req rest = some j
          · simp [hc, hiff.mpr hc]
          · have hne : firstFullMatchIndex req (e0 :: rest) ≠ some (j + 1) := by
              intro hx
              exact hc (hiff.mp hx)
            simp [hc, hne]

lemma checkEveryVals_errorf (req : IncomingRequest) (vals : List requestValidation)
    (rep : Report) (h : rep ∈ checkEveryVals req vals) :
    ∃ msg, rep = Report.errorf msg := by
  induction vals with
  | nil => simp [checkEveryVals] at h
  | cons v rest ih =>
    cases hv : v.validation req with
    | some err =>
      simp only [checkEveryVals, hv, List.mem_cons] at h
      cases h with
      | inl h => exact ⟨_, h⟩
      | inr h => exact ih h
    | none =>
      simp only [checkEveryVals, hv] at h
      exact ih h

lemma checkEvery_errorf (req : IncomingRequest) (es : List requestExpectation)
    (rep : Report) (h : rep ∈ checkEvery req es) :
    ∃ msg, rep = Report.errorf msg := by
  induction es with
  | nil => simp [checkEvery] at h
  | cons e rest ih =>
    simp only [checkEvery, List.mem_append] at h
    cases h with
    | inl h => exact checkEveryVals_errorf req e.requestValidations rep h
    | inr h => exact ih h

lemma checkEveryVals_mem (req : IncomingRequest) (vals : List requestValidation)
    (v : requestValidation) (err : String)
    (hv : v ∈ vals) (herr : v.validation req = some err) :
    Report.errorf ("expectation failed: " ++ err) ∈ checkEveryVals req vals := by
  induction vals with
  | nil => simp at hv
  | cons v0 rest ih =>
    cases hv with
    | head => simp [checkEveryVals, herr]
    | tail _ hmem =>
      cases h0 : v0.validation req <;> simp [checkEveryVals, h0, ih hmem]

lemma checkEvery_mem (req : IncomingRequest) (es : List requestExpectation)
    (e : requestExpectation) (v : requestValidation) (err : String)
    (he : e ∈ es) (hv : v ∈ e.requestValidations) (herr : v.validation req = some err) :
    Report.errorf ("expectation failed: " ++ err) ∈ checkEvery req es := by
  induction es with
  | nil => simp at he
  | cons e0 rest ih =>
    cases he with
    | head =>
      simp only [checkEvery, List.mem_append]
      exact Or.inl (checkEveryVals_mem req e.requestValidations v err hv herr)
    | tail _ hmem =>
      simp only [checkEvery, List.mem_append]
      exact Or.inr (ih hmem)

/-- C1 (counterexample): the counted scan does NOT skip an expectation whose
`count ≥ max`. On `serverC1` (one expectation with bounds `[1, 1]` and a
catch-all 404 default), a first request raises the count to `1 = max`; a
second identical request is — contrary to the claim — matched by the same
expectation again (count becomes `2`) and answered with its 200 response
instead of falling through to the default 404. -/
theorem counted_scan_skip_counterexample :
    ((ServeHTTP serverC1 req0).state.expectations.map (fun e => e.count) = [1]) ∧
    (ServeHTTP (ServeHTTP serverC1 req0).state req0).writes = renderResponse resp200 ∧
    ((ServeHTTP (ServeHTTP serverC1 req0).state req0).state.expectations.map
        (fun e => e.count) = [2]) ∧
    renderResponse resp200 ≠ renderResponse resp404 := by
  refine ⟨rfl, rfl, rfl, by decide⟩

/-- C1 (amended): the counted scan selects the first expectation whose
validators all pass and increments its count, consulting neither `count` nor
`max`: the selected index equals `firstFullMatchIndex`, which reads only the
validators (`map` conjunct), the selected expectation's count is incremented
even when it is already at or above `max`, and every other count is
unchanged. -/
theorem counted_scan_ignores_count_and_max
    (req : IncomingRequest) (es : List requestExpectation) (i : Nat)
    (e : requestExpectation)
    (hfirst : firstFullMatchIndex req es = some i) (hi : es[i]? = some e) :
    (scanExpectations req es).2
      = some { e with
               count := e.count + 1,
               requestValidations := (evalValidations req e.requestValidations).1 } ∧
    (∀ j ej, es[j]? = some ej → ∃ e2, (scanExpectations req es).1[j]? = some e2 ∧
        e2.min = ej.min ∧ e2.max = ej.max ∧
        e2.count = ej.count + (if j = i then 1 else 0)) ∧
    (∀ f : requestExpectation → requestExpectation,
        (∀ x, (f x).requestValidations = x.requestValidations) →
        firstFullMatchIndex req (es.map f) = some i) := by
  refine ⟨scanExpectations_match req es i e hfirst hi, ?_, ?_⟩
  · intro j ej hj
    obtain ⟨e2, hget, hmin, hmax, _, hcount⟩ := scanExpectations_get req es j ej hj
    refine ⟨e2, hget, hmin, hmax, ?_⟩
    rw [hcount]
    by_cases hji : j = i
    · subst hji
      simp [hfirst]
    · have hne : firstFullMatchIndex req es ≠ some j := by
        rw [hfirst]
        intro hx
        injection hx with hx2
        exact hji hx2.symm
      simp [hne, hji]
  · intro f hf
    rw [firstFullMatchIndex_map req es f hf, hfirst]

/-- C1 (witness): the amended theorem applied to a one-element counted list
whose expectation already has `count = 5` above its `max = 1`: it is still
selected and its count incremented. -/
theorem counted_scan_ignores_count_and_max_witness :
    firstFullMatchIndex req0 [expBusy] = some 0 ∧
    (scanExpectations req0 [expBusy]).2
      = some { expBusy with
               count := expBusy.count + 1,
               requestValidations := (evalValidations req0 expBusy.requestValidations).1 } :=
  ⟨rfl, (counted_scan_ignores_count_and_max req0 [expBusy] 0 expBusy rfl rfl).1⟩

/-- C2: when the expectation at index `i` is the first full match of the
request and the expectation at a later index `j` also fully matches, the
earlier-registered one is selected: the scan returns it with its count
incremented by one, the output list carries `count + 1` at index `i`, and the
count at index `j` is unchanged. -/
theorem registration_order_precedence
    (req : IncomingRequest) (es : List requestExpectation) (i j : Nat)
    (ei ej : requestExpectation)
    (hfirst : firstFullMatchIndex req es = some i) (hij : i < j)
    (hi : es[i]? = some ei) (hj : es[j]? = some ej)
    (hjmatch : allPass req ej = true) :
    (scanExpectations req es).2
      = some { ei with
               count := ei.count + 1,
               requestValidations := (evalValidations req ei.requestValidations).1 } ∧
    (∃ e2, (scanExpectations req es).1[i]? = some e2 ∧ e2.count = ei.count + 1) ∧
    (∃ e2, (scanExpectations req es).1[j]? = some e2 ∧ e2.count = ej.count) := by
  refine ⟨scanExpectations_match req es i ei hfirst hi, ?_, ?_⟩
  · obtain ⟨e2, hget, _, _, _, hcount⟩ := scanExpectations_get req es i ei hi
    rw [hfirst] at hcount
    simp only [if_pos rfl] at hcount
    exact ⟨e2, hget, hcount⟩
  · obtain ⟨e2, hget, _, _, _, hcount⟩ := scanExpectations_get req es j ej hj
    have hne : firstFullMatchIndex req es ≠ some j := by
      rw [hfirst]
      intro hx
      injection hx with hx2
      omega
    rw [if_neg hne] at hcount
    simp only [add_zero] at hcount
    exact ⟨e2, hget, hcount⟩

/-- C2 (witness): two counted expectations that both match any request; the
first is selected and incremented, the second's count stays `0`. -/
theorem registration_order_precedence_witness :
    firstFullMatchIndex req0 [expA, expB] = some 0 ∧
    allPass req0 expB = true ∧
    (∃ e2, (scanExpectations req0 [expA, expB]).1[0]? = some e2 ∧
        e2.count = expA.count + 1) ∧
    (∃ e2, (scanExpectations req0 [expA, expB]).1[1]? = some e2 ∧
        e2.count = expB.count) :=
  ⟨rfl, rfl,
    (registration_order_precedence req0 [expA, expB] 0 1 expA expB rfl
      (by decide) rfl rfl rfl).2.1,
    (registration_order_precedence req0 [expA, expB] 0 1 expA expB rfl
      (by decide) rfl rfl rfl).2.2⟩

/-- C3: the EVERY check runs first and is non-fatal and non-blocking: the
response writes and the counted-sequence mutation of a request are exactly
those of the same server without its `every` sequence, the reports are the
EVERY reports followed by the rest, every EVERY report is a non-fatal
`errorf`, and each failing validator of each `every` expectation contributes
its failure report. -/
theorem every_check_nonfatal_never_blocks (s : mockServer) (req : IncomingRequest) :
    (ServeHTTP s req).writes = (ServeHTTP { s with every := [] } req).writes ∧
    (ServeHTTP s req).state.expectations
      = (ServeHTTP { s with every := [] } req).state.expectations ∧
    (ServeHTTP s req).reports
      = checkEvery req s.every ++ (ServeHTTP { s with every := [] } req).reports ∧
    (∀ rep ∈ checkEvery req s.every, ∃ msg, rep = Report.errorf msg) ∧
    (∀ e ∈ s.every, ∀ v ∈ e.requestValidations, ∀ err, v.validation req = some err →
        Report.errorf ("expectation failed: " ++ err) ∈ (ServeHTTP s req).reports) := by
  refine ⟨rfl, rfl, by simp [ServeHTTP, checkEvery], ?_, ?_⟩
  · intro rep hmem
    exact checkEvery_errorf req s.every rep hmem
  · intro e he v hv err herr
    have hmem := checkEvery_mem req s.every e v err he hv herr
    show _ ∈ checkEvery req s.every ++ _
    exact List.mem_append_left _ hmem

/-- C3 (witness): on a concrete server with a failing `every` expectation and
a matching counted expectation, the writes equal those of the every-free
server and the failing validator's non-fatal report is emitted. -/
theorem every_check_nonfatal_never_blocks_witness :
    (ServeHTTP serverC3 req0).writes = (ServeHTTP { serverC3 with every := [] } req0).writes ∧
    (ServeHTTP serverC3 req0).reports
      = checkEvery req0 serverC3.every
        ++ (ServeHTTP { serverC3 with every := [] } req0).reports :=
  ⟨(every_check_nonfatal_never_blocks serverC3 req0).1,
   (every_check_nonfatal_never_blocks serverC3 req0).2.2.1⟩

/-- C4: the `min ≤ max` invariant holds after any sequence of call-count
mutations starting from the counted default `[1, 1]`; `MinTimes n` on the
default (with `n` at most `MaxInt32`) leaves the effectively unbounded upper
bound `MaxInt32`; raising `min` above `max` raises `max` back above `min`
(exactly to `n` when `max` was not the sentinel default `1`); and `MaxTimes n`
with `min > n` lowers `min` to `n`. -/
theorem bounds_invariant_min_le_max :
    (∀ ops : List BoundOp,
        (applyBoundOps ops expectDefault).min ≤ (applyBoundOps ops expectDefault).max) ∧
    (∀ n : Int, n ≤ maxInt32 →
        (expectDefault.MinTimes n).min = n ∧ (expectDefault.MinTimes n).max = maxInt32) ∧
    (∀ (e : requestExpectation) (n : Int), e.max < n →
        (e.MinTimes n).min = n ∧ n ≤ (e.MinTimes n).max) ∧
    (∀ (e : requestExpectation) (n : Int), e.max < n → e.max ≠ 1 →
        (e.MinTimes n).max = n) ∧
    (∀ (e : requestExpectation) (n : Int), n < e.min →
        (e.MaxTimes n).min = n ∧ (e.MaxTimes n).max = n) := by
  refine ⟨?_, ?_, ?_, ?_, ?_⟩
  · intro ops
    exact applyBoundOps_min_le_max ops expectDefault (le_refl 1)
  · intro n hn
    simp only [requestExpectation.MinTimes, expectDefault, maxInt32] at *
    split_ifs <;> simp_all <;> omega
  · intro e n hlt
    simp only [requestExpectation.MinTimes, maxInt32] at *
    split_ifs <;> simp_all <;> omega
  · intro e n hlt hne
    simp only [requestExpectation.MinTimes, maxInt32] at *
    split_ifs <;> simp_all <;> omega
  · intro e n hlt
    simp only [requestExpectation.MaxTimes] at *
    split_ifs <;> simp_all <;> omega

/-- C4 (witness): the invariant on a concrete mutation sequence, the
unbounded upper bound after `MinTimes 5` on the default, the `max`-raising
behavior of `MinTimes 7` after `Times 3`, and the `min`-lowering behavior of
`MaxTimes 2` after `Times 5`. -/
theorem bounds_invariant_min_le_max_witness :
    ((applyBoundOps [BoundOp.times 3, BoundOp.minTimes 5] expectDefault).min
      ≤ (applyBoundOps [BoundOp.times 3, BoundOp.minTimes 5] expectDefault).max) ∧
    ((5 : Int) ≤ maxInt32 ∧ (expectDefault.MinTimes 5).min = 5
      ∧ (expectDefault.MinTimes 5).max = maxInt32) ∧
    ((expectDefault.Times 3).max < 7 ∧ ((expectDefault.Times 3).MinTimes 7).max = 7) ∧
    ((2 : Int) < (expectDefault.Times 5).min ∧ ((expectDefault.Times 5).MaxTimes 2).min = 2
      ∧ ((expectDefault.Times 5).MaxTimes 2).max = 2) :=
  ⟨bounds_invariant_min_le_max.1 [BoundOp.times 3, BoundOp.minTimes 5],
   ⟨by decide, bounds_invariant_min_le_max.2.1 5 (by decide)⟩,
   ⟨by decide, bounds_invariant_min_le_max.2.2.2.1 (expectDefault.Times 3) 7
      (by decide) (by decide)⟩,
   ⟨by decide, bounds_invariant_min_le_max.2.2.2.2 (expectDefault.Times 5) 2 (by decide)⟩⟩

/-- C5: `AssertExpectations` emits a fatal aggregated report exactly when some
counted expectation has `count < min`, `count > max`, or zero validators;
otherwise it emits nothing; and everything it emits is fatal. -/
theorem assert_expectations_fatal_iff (s : mockServer) :
    ((AssertExpectations s).2 ≠ []
      ↔ ∃ e ∈ s.expectations,
          e.count < e.min ∨ e.count > e.max ∨ e.requestValidations = []) ∧
    (∀ rep ∈ (AssertExpectations s).2, ∃ msg, rep = Report.fatalf msg) := by
  constructor
  · unfold AssertExpectations
    by_cases h : s.expectations.any unsatisfiedExp = true
    · rw [if_pos h]
      simp only [ne_eq, List.cons_ne_nil, not_false_iff, true_iff]
      rw [List.any_eq_true] at h
      obtain ⟨e, hmem, huns⟩ := h
      exact ⟨e, hmem, (unsatisfiedExp_iff e).mp huns⟩
    · rw [if_neg h]
      simp only [ne_eq, not_true, false_iff, not_not]
      intro hex
      obtain ⟨e, hmem, hcond⟩ := hex
      exact absurd (List.any_eq_true.mpr ⟨e, hmem, (unsatisfiedExp_iff e).mpr hcond⟩) h
  · intro rep hrep
    unfold AssertExpectations at hrep
    by_cases h : s.expectations.any unsatisfiedExp = true
    · rw [if_pos h] at hrep
      simp only [List.mem_singleton] at hrep
      exact ⟨_, hrep⟩
    · rw [if_neg h] at hrep
      simp at hrep

/-- C5 (witness): `serverC5`'s only counted expectation was never called (and
has zero validators), so verification reports a fatal failure. -/
theorem assert_expectations_fatal_iff_witness :
    (AssertExpectations serverC5).2 ≠ [] :=
  (assert_expectations_fatal_iff serverC5).1.mpr
    ⟨expectDefault, by simp [serverC5], Or.inl (by decide)⟩

/-- C6 (counterexample): an expectation abandoned mid-evaluation does NOT
leave its earlier validators unmarked. On `serverC6` the first validator
passes and the second fails, so the expectation never fully matches, yet
after one request the first validator's `satisfied` flag is `true`. -/
theorem satisfied_flag_counterexample :
    ((ServeHTTP serverC6 req0).state.expectations.map
        (fun e => e.requestValidations.map (fun v => v.satisfied))) = [[true, false]] ∧
    firstFullMatchIndex req0 serverC6.expectations = none ∧
    (scanExpectations req0 serverC6.expectations).2 = none :=
  ⟨rfl, rfl, rfl⟩

/-- C6 (amended): during the counted scan, a validator's `satisfied` flag is
set as soon as the validator itself and all validators before it in the same
expectation pass on the request — even when a later validator fails and the
expectation is abandoned; the expectation fully matches only when all of its
validators pass. -/
theorem satisfied_flag_eager_marking (req : IncomingRequest)
    (vals : List requestValidation) (j : Nat) (v : requestValidation)
    (hv : vals[j]? = some v) :
    (∃ v2, (evalValidations req vals).1[j]? = some v2 ∧
        v2.satisfied
          = (v.satisfied
              || (vals.take (j + 1)).all (fun u => (u.validation req).isNone))) ∧
    ((evalValidations req vals).2 = vals.all (fun u => (u.validation req).isNone)) := by
  refine ⟨?_, evalValidations_snd req vals⟩
  obtain ⟨v2, hget, _, _, hsat⟩ := evalValidations_get req vals j v hv
  exact ⟨v2, hget, hsat⟩

/-- C6 (witness): the amended theorem applied to the pass-then-fail validator
list: the first validator comes out marked although the conjunction fails. -/
theorem satisfied_flag_eager_marking_witness :
    ([vPass, vFail][0]? = some vPass) ∧
    (∃ v2, (evalValidations req0 [vPass, vFail]).1[0]? = some v2 ∧
        v2.satisfied
          = (vPass.satisfied
              || (([vPass, vFail].take 1).all (fun u => (u.validation req0).isNone)))) :=
  ⟨rfl, (satisfied_flag_eager_marking req0 [vPass, vFail] 0 vPass rfl).1⟩

/-- C7: rendering a matched response always emits its status code and all of
its headers; a body write happens exactly when the body is non-nil, and a
non-nil (possibly empty) body is written as-is; on the matched path with a
response template set, `respond` performs exactly these writes and reports
nothing. -/
theorem response_body_written_iff_non_nil (resp : MockResponse) :
    (WriteOp.writeHeader resp.Code ∈ renderResponse resp) ∧
    (∀ kv ∈ resp.Headers, WriteOp.setHeader kv.1 kv.2 ∈ renderResponse resp) ∧
    ((∃ b, WriteOp.write b ∈ renderResponse resp) ↔ resp.Body ≠ none) ∧
    (∀ b, resp.Body = some b → WriteOp.write b ∈ renderResponse resp) ∧
    (∀ (e : requestExpectation) (req : IncomingRequest), e.response = some resp →
        respond (some e) req = ([], renderResponse resp)) := by
  refine ⟨?_, ?_, ?_, ?_, ?_⟩
  · simp [renderResponse]
  · intro kv hkv
    simp only [renderResponse, List.mem_append, List.mem_map]
    exact Or.inl (Or.inl ⟨kv, hkv, rfl⟩)
  · cases hb : resp.Body with
    | none => simp [renderResponse, hb]
    | some b =>
      constructor
      · intro _
        simp [hb]
      · intro _
        exact ⟨b, by simp [renderResponse, hb]⟩
  · intro b hb
    simp [renderResponse, hb]
  · intro e req hresp
    simp [respond, hresp]

/-- C7 (witness): the theorem applied to the concrete 200 response with body
bytes `[111, 107]` and to the expectation `expOnce` carrying it. -/
theorem response_body_written_iff_non_nil_witness :
    (resp200.Body = some [111, 107] ∧ WriteOp.write [111, 107] ∈ renderResponse resp200) ∧
    (expOnce.response = some resp200 ∧ respond (some expOnce) req0 = ([], renderResponse resp200)) :=
  ⟨⟨rfl, (response_body_written_iff_non_nil resp200).2.2.2.1 [111, 107] rfl⟩,
   ⟨rfl, (response_body_written_iff_non_nil resp200).2.2.2.2 expOnce req0 rfl⟩⟩

/-- C8: `Shutdown` without a prior `AssertExpectations` reports the fatal
usage error and leaves the server untouched (in particular not closed);
after verification it closes the listener and reports nothing. -/
theorem shutdown_requires_verification (s : mockServer) :
    (s.finisheCalled = false →
        (Shutdown s).1 = s ∧
        (Shutdown s).2
          = [Report.fatalf "AssertExpectations() was not called, no expectations were checked"]) ∧
    (s.finisheCalled = true →
        (Shutdown s).2 = [] ∧ (Shutdown s).1.serverClosed = true) := by
  constructor <;> intro h <;> simp [Shutdown, h]

/-- C8 (witness): the theorem applied to a server before verification and to
one after verification. -/
theorem shutdown_requires_verification_witness :
    (serverUnverified.finisheCalled = false
      ∧ (Shutdown serverUnverified).1 = serverUnverified) ∧
    (serverVerified.finisheCalled = true ∧ (Shutdown serverVerified).2 = []) :=
  ⟨⟨rfl, ((shutdown_requires_verification serverUnverified).1 rfl).1⟩,
   ⟨rfl, ((shutdown_requires_verification serverVerified).2 rfl).1⟩⟩

/-- C9: `AssertExpectations` sets `finisheCalled` at entry, whether or not it
then reports unsatisfied expectations, so a subsequent `Shutdown` never
reports the missing-verification fatal error and closes the listener. -/
theorem assert_sets_flag_before_checks (s : mockServer) :
    (AssertExpectations s).1.finisheCalled = true ∧
    (Shutdown (AssertExpectations s).1).2 = [] ∧
    (Shutdown (AssertExpectations s).1).1.serverClosed = true := by
  have h : (AssertExpectations s).1.finisheCalled = true := by
    unfold AssertExpectations
    by_cases hb : s.expectations.any unsatisfiedExp = true
    · rw [if_pos hb]
    · rw [if_neg hb]
  exact ⟨h, by simp [Shutdown, h], by simp [Shutdown, h]⟩

/-- C10: the query-parameter regex validator passes exactly when the query
parameter is present (non-empty) and the regex matches the request's FORM
value for that name; in particular a request whose query value matches the
regex while its form value does not is rejected. -/
theorem query_parameter_matches_uses_form_value (m : String → Bool) (key : String)
    (r : IncomingRequest) :
    (queryParameterMatchesValidation m key r = none
      ↔ (r.queryGet key ≠ "" ∧ m (r.formGet key) = true)) ∧
    (m (r.queryGet key) = true → m (r.formGet key) = false →
        queryParameterMatchesValidation m key r ≠ none) := by
  unfold queryParameterMatchesValidation
  by_cases hq : r.queryGet key = ""
  · simp [hq]
  · by_cases hm : m (r.formGet key) = true
    · simp [hq, hm]
    · simp only [Bool.not_eq_true] at hm
      simp [hq, hm]

/-- C10 (witness): on `reqC10` the query value `abc` matches the regex while
the form value `xyz` does not, and the validator rejects the request. -/
theorem query_parameter_matches_uses_form_value_witness :
    mAbc (reqC10.queryGet "q") = true ∧ mAbc (reqC10.formGet "q") = false ∧
    queryParameterMatchesValidation mAbc "q" reqC10 ≠ none :=
  ⟨rfl, rfl, (query_parameter_matches_uses_form_value mAbc "q" reqC10).2 rfl rfl⟩

end Httpmockserver
